import Mathlib

/-!
Verification of the typed-property/stream resolution engine of the
msg-extractor repository (`extract_msg/msg_classes/msg.py`,
`extract_msg/recipient.py`) against its natural-language specification.

Shallow embedding conventions:
* container paths are lists of characters (`Path`), byte strings are lists
  of naturals (`Bytes`);
* fallible Python code becomes `Except PyErr`; a `None` return becomes
  `Option.none`;
* repository helpers that are not part of the provided sources
  (`utils.py`, `properties_store.py`, `enums.py`, `encoding.py`) are
  modelled from the specification and marked as such in their doc comments.
-/

namespace MsgSpec

abbrev Bytes := List Nat

abbrev Path := List Char

/-- Shorthand turning a string literal into a container path. -/
def pstr (s : String) : Path := s.toList

/-- The exception taxonomy observable from the embedded operations
(spec section 7): standards violations, unimplemented binary sub-formats,
released weak references, unknown codepages, and Python-level type/value
errors. -/
inductive PyErr where
  | standardViolation (m : String)
  | notImplemented (m : String)
  | referenceError (m : String)
  | unknownCodePage (cp : Nat)
  | typeError (m : String)
  | valueError (m : String)
deriving DecidableEq, Repr

/-- Modelled from the spec: `enums.py` is not part of the provided sources.
`errorBehavior` is THROW or TOLERANT (spec section 6); the code tests
membership of the STANDARDS_VIOLATION flag in the enum, which we record as
the boolean `svTolerant` (`true` = TOLERANT). -/
structure ErrorBehavior where
  svTolerant : Bool
deriving DecidableEq, Repr

/-- The `PropertiesType` argument passed when building a property store
(`msg.py` line 1011). -/
inductive PropertiesType where
  | message
  | messageEmbed
  | recipient
  | attachment
deriving DecidableEq, Repr

/-- Modelled from the spec: `properties/properties_store.py` is not part of
the provided sources. Spec section 4.2: fixed-size slots keyed by an
8-hex-character tag; fixed-length types store the value inline, all
variable-length and multi-valued types store only a declared length. -/
inductive PropRecord where
  | fixedLen (value : Nat)
  | varLen (declaredLength : Nat)
deriving DecidableEq, Repr

/-- Modelled from the spec: the property store is an id-to-record mapping
built from the fixed property-record stream (spec section 4.2). -/
structure PropertiesStore where
  records : List (Path × PropRecord)
deriving DecidableEq, Repr

/-- The external compound-container handle (spec section 6, a consumed
collaborator): an ordered directory listing and stream contents by path.
`listdirFn` takes the `streams` and `storages` selection flags. -/
structure Ole where
  listdirFn : Bool → Bool → List (List Path)
  content : Path → Option Bytes

/-- State of the weak back-reference to the logical parent entity:
no parent at all (the root), a still-live parent, or a parent that has
been garbage collected. -/
inductive ParentRef where
  | root
  | alive
  | collected
deriving DecidableEq, Repr

/-- The entity state of `MSGFile.__init__` that the verified operations
read: the shared container handle, the path prefix (as a segment list),
the error behavior, the optional encoding override, and the weak
back-reference state. -/
structure MSGFile where
  ole : Ole
  prefixList : List Path
  errorBehavior : ErrorBehavior
  overrideEncoding : Option String
  parentMsg : ParentRef

/-- Join path segments with the separator, `'/'.join` in the source. -/
def joinSlash : List Path → Path
  | [] => []
  | [x] => x
  | x :: y :: xs => x ++ '/' :: joinSlash (y :: xs)

/-- The string form of the prefix: `''` when empty, otherwise the joined
segments followed by a trailing separator (`msg.py` lines 167-174). -/
def MSGFile.prefixStr (m : MSGFile) : Path :=
  if m.prefixList = [] then [] else joinSlash m.prefixList ++ [ '/' ]

/-- `MSGFile.fixPath` (`msg.py` lines 473-481): prepend the prefix when
requested. Path arguments are already joined strings in this embedding
(`msgPathToString` from the absent `utils.py` joins segments with `'/'`). -/
def MSGFile.fixPath (m : MSGFile) (inp : Path) (usePfx : Bool) : Path :=
  if usePfx then m.prefixStr ++ inp else inp

/-- `MSGFile.getStream` (`msg.py` lines 630-646): fix the path, then read
the stream from the container, `none` when it does not exist. The
source's `exists` check followed by `openstream().read() or b''` is the
container's content lookup in this model. -/
def MSGFile.getStream (m : MSGFile) (filename : Path) (usePfx : Bool) : Option Bytes :=
  m.ole.content (m.fixPath filename usePfx)

/-- `MSGFile.exists` (`msg.py` lines 396-401). -/
def MSGFile.existsStream (m : MSGFile) (inp : Path) (usePfx : Bool) : Bool :=
  (m.getStream inp usePfx).isSome

/-- `MSGFile.listDir` (`msg.py` lines 705-730): the container listing,
restricted to entries strictly below the prefix, optionally with the
prefix segments removed. The memoization cache of the source is not
observable in a pure embedding. -/
def MSGFile.listDir (m : MSGFile) (streams storages includePrefix : Bool) :
    List (List Path) :=
  let entries := m.ole.listdirFn streams storages
  if m.prefixList = [] then entries
  else
    let n := m.prefixList.length
    let filtered := entries.filter (fun x => n < x.length ∧ x.take n = m.prefixList)
    if includePrefix then filtered else filtered.map (fun x => x.drop n)

/-- `MSGFile.slistDir` (`msg.py` lines 732-737): `listDir` with every
entry joined into a single string. -/
def MSGFile.slistDir (m : MSGFile) (streams storages includePrefix : Bool) : List Path :=
  (m.listDir streams storages includePrefix).map joinSlash

/-- Uppercase hex digit of a value below 16, used by the `f'{x:08X}'`
formatting of indexed sibling stream names. -/
def hexDigit (n : Nat) : Char :=
  if n < 10 then Char.ofNat (48 + n) else Char.ofNat (55 + n)

/-- `f'{n:08X}'`: eight uppercase hex digits. -/
def toHex8 (n : Nat) : Path :=
  [hexDigit (n / 16 ^ 7 % 16), hexDigit (n / 16 ^ 6 % 16),
   hexDigit (n / 16 ^ 5 % 16), hexDigit (n / 16 ^ 4 % 16),
   hexDigit (n / 16 ^ 3 % 16), hexDigit (n / 16 ^ 2 % 16),
   hexDigit (n / 16 % 16), hexDigit (n % 16)]

/-- Four uppercase hex digits, used for property-tag text. -/
def toHex4 (n : Nat) : Path :=
  [hexDigit (n / 16 ^ 3 % 16), hexDigit (n / 16 ^ 2 % 16),
   hexDigit (n / 16 % 16), hexDigit (n % 16)]

/-- Python `str.upper` on a single ASCII character. -/
def pyUpperChar (c : Char) : Char :=
  if 'a' ≤ c ∧ c ≤ 'z' then Char.ofNat (c.toNat - 32) else c

/-- Python `str.upper` on a path. -/
def pyUpper (p : Path) : Path := p.map pyUpperChar

/-- A hexadecimal digit in either case. -/
def isHexDigitChar (c : Char) : Bool :=
  ('0' ≤ c ∧ c ≤ '9') ∨ ('a' ≤ c ∧ c ≤ 'f') ∨ ('A' ≤ c ∧ c ≤ 'F')

/-- Modelled from the spec: `verifyPropertyId` of the absent `utils.py`
accepts exactly 4-hex-digit property identifiers. -/
def validPropId (p : Path) : Bool :=
  p.length = 4 && p.all isHexDigitChar

/-- Modelled from the spec: `verifyType` of the absent `utils.py` accepts
exactly 4-hex-digit type codes. -/
def validType4 (p : Path) : Bool :=
  p.length = 4 && p.all isHexDigitChar

/-- The stream-name stem `'__substg1.0_' + id` used by typed resolution. -/
def substgName (id : Path) : Path := pstr ("__substg1.0_") ++ id

/-- Little-endian interpretation of a byte string. -/
def leNat : Bytes → Nat
  | [] => 0
  | b :: r => b % 256 + 256 * leNat r

/-- Split a list into consecutive chunks of exactly `w` elements,
discarding a shorter tail; `divide` of the absent `utils.py`, modelled
from the spec (one fixed-width record per element). -/
def chunkExact (w : Nat) (l : List α) : List (List α) :=
  if w = 0 then []
  else (List.range (l.length / w)).map (fun i => (l.drop (i * w)).take w)

/-- Modelled from the spec: the fixed-width (inline) type families of
spec section 3 - numeric, time, boolean, identifier and error codes. -/
def isFixedTypeNum (t : Nat) : Bool :=
  t ∈ [0x0001, 0x0002, 0x0003, 0x0004, 0x0005, 0x0006, 0x0007,
       0x000A, 0x000B, 0x0014, 0x0040, 0x0048]

/-- Modelled from the spec: one fixed-size property-record slot
(spec section 4.2). Tag = 2-byte type then 2-byte id, little endian,
rendered as the 8-hex-character key id+type; bytes 8.. hold the inline
value for fixed-length types and the declared length for variable-length
types. The header layout is not described by the spec and is modelled as
absent. -/
def parseSlot (s : Bytes) : Path × PropRecord :=
  let tNum := leNat (s.take 2)
  let idNum := leNat ((s.drop 2).take 2)
  let key := toHex4 idNum ++ toHex4 tNum
  if isFixedTypeNum tNum then (key, .fixedLen (leNat (s.drop 8)))
  else (key, .varLen (leNat ((s.drop 8).take 4)))

/-- Modelled from the spec: `PropertiesStore.__init__` of the absent
`properties_store.py`. An absent or empty stream yields a store with zero
records (spec section 4.2); otherwise the stream is a sequence of
fixed-size slots. The `PropertiesType` argument is carried for fidelity
with the call site but does not change the modelled slot layout. -/
def PropertiesStore.parse (_t : PropertiesType) (s : Option Bytes) : PropertiesStore :=
  ⟨(chunkExact 16 (s.getD [])).map parseSlot⟩

/-- Record lookup by 8-hex-character tag. -/
def PropertiesStore.findRecord (st : PropertiesStore) (key : Path) : Option PropRecord :=
  (st.records.find? (fun kv => kv.1 = key)).map (fun kv => kv.2)

/-- Modelled from the spec: `getValue(tag, default)` returns the inline
value of a fixed-length record; variable-length records store no inline
value, so the lookup yields `none` (the caller's default) for them and
for absent tags. -/
def PropertiesStore.getValue (st : PropertiesStore) (key : Path) : Option Nat :=
  match st.findRecord key with
  | some (.fixedLen v) => some v
  | _ => none

/-- Membership test, `key in store` in the source. -/
def PropertiesStore.containsKey (st : PropertiesStore) (key : Path) : Bool :=
  (st.findRecord key).isSome

/-- The declared length of a variable-length record
(`VariableLengthProp.realLength`, spec section 4.3: element count from the
companion record's declared length). -/
def PropertiesStore.realLength (st : PropertiesStore) (key : Path) : Option Nat :=
  match st.findRecord key with
  | some (.varLen n) => some n
  | _ => none

/-- The fixed, well-known name of the property-record stream. -/
def propsStreamName : Path := pstr ("__properties_version1.0")

/-- The `PropertiesType` chosen by `MSGFile.props` (`msg.py` line 1011):
MESSAGE at the root, MESSAGE_EMBED under a prefix. -/
def MSGFile.propertiesType (m : MSGFile) : PropertiesType :=
  if m.prefixList = [] then .message else .messageEmbed

/-- `MSGFile.props` (`msg.py` lines 998-1011): read the fixed
property-record stream; when it is absent or empty, raise
`StandardViolationError` under THROW and degrade to an empty store under
TOLERANT. -/
def MSGFile.props (m : MSGFile) : Except PyErr PropertiesStore :=
  let stream := m.getStream propsStreamName true
  if stream = none ∨ stream = some [] then
    if m.errorBehavior.svTolerant then
      .ok (PropertiesStore.parse m.propertiesType stream)
    else
      .error (.standardViolation ("File does not contain a property stream."))
  else
    .ok (PropertiesStore.parse m.propertiesType stream)

/-- `MSGFile.getPropertyVal` (`msg.py` lines 582-588):
`props.getValue(name, default)` with the default `None` modelled as
`Option.none`. -/
def MSGFile.getPropertyVal (m : MSGFile) (name : Path) : Except PyErr (Option Nat) :=
  (m.props).map (fun st => st.getValue name)

/-- `MSGFile.areStringsUnicode` (`msg.py` lines 789-794): bit 0x40000 of
the store-support-mask property `340D0003`, defaulting to 0. -/
def MSGFile.areStringsUnicode (m : MSGFile) : Except PyErr Bool :=
  (m.props).map (fun st =>
    decide (((st.getValue (pstr ("340D0003"))).getD 0) &&& 0x40000 ≠ 0))

/-- Modelled from the spec: `lookupCodePage` of the absent `encoding.py`
maps a codepage number through a fixed table and fails on an unknown
codepage (spec section 4.4). Representative table entries. -/
def lookupCodePage (cp : Nat) : Except PyErr String :=
  if cp = 1252 then .ok ("windows-1252")
  else if cp = 65001 then .ok ("utf-8")
  else if cp = 20127 then .ok ("ascii")
  else if cp = 28605 then .ok ("iso-8859-15")
  else if cp = 932 then .ok ("shift-jis")
  else .error (.unknownCodePage cp)

/-- `MSGFile.stringEncoding` (`msg.py` lines 1028-1049): the override
wins when present; otherwise UTF-16LE when the Unicode bit is set; else
the codepage property mapped through the fixed table when present; else
the ISO-8859-15 default with a logged warning. The source caches the
result; the cache is not observable in a pure embedding. -/
def MSGFile.stringEncoding (m : MSGFile) : Except PyErr String :=
  match m.overrideEncoding with
  | some e => .ok e
  | none => do
    let u ← m.areStringsUnicode
    if u then
      .ok ("utf-16-le")
    else do
      let st ← m.props
      if st.containsKey (pstr ("3FFD0003")) = false then
        .ok ("iso-8859-15")
      else
        match st.getValue (pstr ("3FFD0003")) with
        | some cp => lookupCodePage cp
        | none => .error (.typeError ("codepage property holds no inline value"))

/-- Modelled from the spec: text decoding is an external codec
(`str.decode` / python codecs); represented by pairing UTF-16LE code
units or mapping single bytes to characters. -/
def decodeChars (enc : String) (b : Bytes) : List Char :=
  if enc = "utf-16-le" then (chunkExact 2 b).map (fun p => Char.ofNat (leNat p))
  else b.map Char.ofNat

/-- Modelled from the spec: `windowsUnicode` of the absent `utils.py`,
UTF-16LE decoding carried over `None`. -/
def windowsUnicode (b : Option Bytes) : Option (List Char) :=
  b.map (decodeChars "utf-16-le")

/-- `MSGFile.getMultipleBinary` (`msg.py` lines 483-509). The container
stream is read and each 8-byte record indexes one sibling stream. The
source computes `next((x for x in ret if x is None), -1)`: when a sibling
is missing, the first matching generator element is the value `None`
itself, so `index` is `None`, `ret[:None]` slices nothing off, and the
whole list - missing entries included - is returned. -/
def MSGFile.getMultipleBinary (m : MSGFile) (filename : Path) (usePfx : Bool) :
    Except PyErr (Option (List (Option Bytes))) :=
  let fn := m.fixPath filename usePfx ++ pstr ("1102")
  match m.getStream fn true with
  | none => .ok none
  | some mult =>
    if mult.length = 0 then .ok (some [])
    else if mult.length % 8 ≠ 0 then
      .error (.standardViolation ("Length stream for multiple binary was not a multiple of 8."))
    else
      let ret := (List.range (mult.length / 8)).map
        (fun x => m.getStream (fn ++ '-' :: toHex8 x) true)
      match ret.find? (fun x => x.isNone) with
      | some _ => .ok (some ret)
      | none => .ok (some ret)

/-- The decode loop of `MSGFile.getMultipleString` (`msg.py` lines
533-540): decode elements in order, strip the trailing null character,
and truncate at the first missing sibling stream. -/
def msDecodeLoop (m : MSGFile) : List (Option Bytes) → Except PyErr (List (List Char))
  | [] => .ok []
  | none :: _ => .ok []
  | some b :: rest => do
    let enc ← m.stringEncoding
    let r ← msDecodeLoop m rest
    .ok ((decodeChars enc b).dropLast :: r)

/-- `MSGFile.getMultipleString` (`msg.py` lines 511-540). The source line
`filename = self.fixPath(filename, prefix) + '101F' if self.areStringsUnicode else '101E'`
binds the conditional to the whole concatenation: in the non-Unicode case
the consulted stream name is the constant `'101E'` (then prefixed again by
`getStream`). An absent container stream yields the empty list. -/
def MSGFile.getMultipleString (m : MSGFile) (filename : Path) (usePfx : Bool) :
    Except PyErr (List (List Char)) := do
  let u ← m.areStringsUnicode
  let fn := if u then m.fixPath filename usePfx ++ pstr ("101F") else pstr ("101E")
  match m.getStream fn true with
  | none => .ok []
  | some mult =>
    if mult.length = 0 then .ok []
    else if mult.length % 4 ≠ 0 then
      .error (.standardViolation ("Length stream for multiple string was not a multiple of 4."))
    else
      msDecodeLoop m ((List.range (mult.length / 4)).map
        (fun x => m.getStream (fn ++ '-' :: toHex8 x) true))

/-- `MSGFile.getStringStream` (`msg.py` lines 666-685): the
unicode-suffixed stream decoded as UTF-16LE when the entity's strings are
Unicode, otherwise the legacy-suffixed stream decoded with the entity's
resolved encoding; `none` when the stream is absent. -/
def MSGFile.getStringStream (m : MSGFile) (filename : Path) (usePfx : Bool) :
    Except PyErr (Option (List Char)) := do
  let fn := m.fixPath filename usePfx
  let u ← m.areStringsUnicode
  if u then
    .ok (windowsUnicode (m.getStream (fn ++ pstr ("001F")) false))
  else
    match m.getStream (fn ++ pstr ("001E")) false with
    | none => .ok none
    | some b => do
      let enc ← m.stringEncoding
      .ok (some (decodeChars enc b))

/-- `MSGFile.getSingleOrMultipleString` (`msg.py` lines 610-628): the
single-valued string stream first, the multi-valued set of the same id
only when it is absent. -/
def MSGFile.getSingleOrMultipleString (m : MSGFile) (filename : Path) (usePfx : Bool) :
    Except PyErr (Option (List Char ⊕ List (List Char))) := do
  let fn := m.fixPath filename usePfx
  match ← m.getStringStream fn false with
  | some s => .ok (some (.inl s))
  | none => do
    let l ← m.getMultipleString fn false
    .ok (some (.inr l))

/-- `MSGFile.getSingleOrMultipleBinary` (`msg.py` lines 590-608): the
single-valued binary stream first, the multi-valued set of the same id
only when it is absent. -/
def MSGFile.getSingleOrMultipleBinary (m : MSGFile) (filename : Path) (usePfx : Bool) :
    Except PyErr (Option (Bytes ⊕ List (Option Bytes))) := do
  let fn := m.fixPath filename usePfx
  match m.getStream (fn ++ pstr ("0102")) false with
  | some b => .ok (some (.inl b))
  | none => do
    let r ← m.getMultipleBinary fn false
    .ok (r.map .inr)

/-- The semantic value families produced by typed resolution
(spec section 4.3 decoding table). -/
inductive Value where
  | int (n : Nat)
  | bytes (b : Bytes)
  | str (s : List Char)
  | strList (l : List (List Char))
  | bytesList (l : List Bytes)
  | intList (l : List Nat)
deriving DecidableEq, Repr

/-- The second argument of `parseType`: raw stream bytes, or - for packed
multi-value families, after the source rebinds `contents = streams` - the
element count. -/
inductive ContentsArg where
  | raw (b : Bytes)
  | count (n : Nat)
deriving DecidableEq, Repr

/-- The packed multi-value type codes handled by `_getTypedStream`
(`msg.py` line 348). -/
def packedTypes : List Path :=
  [pstr ("1002"), pstr ("1003"), pstr ("1004"), pstr ("1005"),
   pstr ("1007"), pstr ("1014"), pstr ("1040"), pstr ("1048")]

/-- Modelled from the spec: the fixed element widths of the packed
multi-value families (`constants.MULTIPLE_2_BYTES` and friends of the
absent `constants.py`; spec section 4.3, one fixed-width record per
element). -/
def multWidth (t : Path) : Nat :=
  if t = pstr ("1002") then 2
  else if t = pstr ("1003") ∨ t = pstr ("1004") then 4
  else if t = pstr ("1005") ∨ t = pstr ("1007") ∨ t = pstr ("1014") ∨ t = pstr ("1040") then 8
  else 16

/-- Modelled from the spec: `parseType` of the absent `utils.py`, the
type-code decoding table of spec section 4.3. Multi-valued string and
binary families decode the indexed sibling contents; packed families
decode the fixed-width chunks; single strings decode the stream with the
entity encoding (UTF-16LE for the unicode suffix); everything else is the
raw bytes. -/
def parseType (t : Path) (contents : ContentsArg) (enc : String) (extras : List Bytes) : Value :=
  let raw := match contents with
    | .raw b => b
    | .count _ => []
  if t = pstr ("101F") then .strList (extras.map (decodeChars "utf-16-le"))
  else if t = pstr ("101E") then .strList (extras.map (decodeChars enc))
  else if t = pstr ("1102") then .bytesList extras
  else if t ∈ packedTypes then .intList (extras.map leNat)
  else if t = pstr ("001F") then .str (decodeChars "utf-16-le" raw)
  else if t = pstr ("001E") then .str (decodeChars enc raw)
  else .bytes raw

/-- The swallowed `self.props[x[-8:]].realLength` lookup of
`msg.py` lines 349-353: any exception (missing property stream under
THROW, missing key, record without `realLength`) falls back to `none`. -/
def MSGFile.propsRealLength (m : MSGFile) (key : Path) : Option Nat :=
  match m.props with
  | .error _ => none
  | .ok st => st.realLength key

/-- The loop body of `MSGFile._getTypedStream` (`msg.py` lines 335-365)
over the candidate stream names: the first candidate that starts with the
fixed name, carries no indexed-element suffix, and exists, determines the
result; an empty stream resolves to a found-but-`None` value; a
multi-value candidate gathers its element count and sibling contents and
an unrecognized multi-value type code fails with `NotImplementedError`. -/
def MSGFile.typedScan (m : MSGFile) (filename : Path) :
    List Path → Except PyErr (Bool × Option Value)
  | [] => .ok (false, none)
  | x :: rest =>
    if filename <+: x ∧ '-' ∉ x then
      match m.getStream x false with
      | none => m.typedScan filename rest
      | some [] => .ok (true, none)
      | some contents =>
        let t := x.drop (x.length - 4)
        if t.head? = some '1' then do
          let streams ←
            if t = pstr ("101F") ∨ t = pstr ("101E") then
              Except.ok (contents.length / 4)
            else if t = pstr ("1102") then
              Except.ok (contents.length / 8)
            else if t ∈ packedTypes then
              Except.ok (match m.propsRealLength (x.drop (x.length - 8)) with
                | some n => n
                | none => contents.length / multWidth t)
            else
              Except.error (.notImplemented ("The stream specified is of an unhandled multiple type."))
          let packed := t ∈ packedTypes
          let extras : List Bytes :=
            if packed then chunkExact (multWidth t) contents
            else if m.existsStream (x ++ '-' :: toHex8 0) false then
              (List.range streams).filterMap (fun y => m.getStream (x ++ '-' :: toHex8 y) false)
            else []
          let carg : ContentsArg := if packed then .count streams else .raw contents
          let enc ← m.stringEncoding
          .ok (true, some (parseType t carg enc extras))
        else do
          let enc ← m.stringEncoding
          .ok (true, some (parseType t (.raw contents) enc []))
    else m.typedScan filename rest

/-- `MSGFile._getTypedStream` (`msg.py` lines 315-365): with a known type
the only candidate is the exact id+type stream name; otherwise every
listed stream is scanned in listing order. -/
def MSGFile._getTypedStream (m : MSGFile) (filename : Path) (usePfx : Bool)
    (t? : Option Path) : Except PyErr (Bool × Option Value) :=
  match t? with
  | some ty =>
    if validType4 ty then
      let fn := m.fixPath filename usePfx
      m.typedScan fn [fn ++ ty]
    else .error (.valueError ("Invalid type."))
  | none =>
    let fn := m.fixPath filename usePfx
    m.typedScan fn (m.slistDir true false true)

/-- `MSGFile._getTypedProperty` (`msg.py` lines 294-313): the inline
Property Store record for id (+type when known), with a not-found
sentinel. -/
def MSGFile._getTypedProperty (m : MSGFile) (propertyID : Path) (t? : Option Path) :
    Except PyErr (Bool × Option Value) :=
  if validPropId propertyID = false then .error (.valueError ("Invalid property id."))
  else
    match t? with
    | some ty =>
      if validType4 ty then do
        let st ← m.props
        match st.getValue (propertyID ++ ty) with
        | some v => .ok (true, some (.int v))
        | none => .ok (false, none)
      else .error (.valueError ("Invalid type."))
    | none => do
      let st ← m.props
      match st.getValue propertyID with
      | some v => .ok (true, some (.int v))
      | none => .ok (false, none)

/-- `MSGFile._getTypedData` (`msg.py` lines 276-292): try the stream
resolution for `'__substg1.0_' + id`, fall back to the inline Property
Store record only when no stream was found, `none` when neither exists. -/
def MSGFile._getTypedData (m : MSGFile) (id0 : Path) (t? : Option Path) :
    Except PyErr (Option Value) :=
  if validPropId id0 = false then .error (.valueError ("Invalid property id."))
  else do
    let idU := pyUpper id0
    let (found, result) ← m._getTypedStream (substgName idU) true t?
    if found then .ok result
    else do
      let (f2, r2) ← m._getTypedProperty idU t?
      .ok (if f2 then r2 else none)

/-- The origin of an entity's named-property table (`MSGFile.named`,
`msg.py` lines 926-943): the parent's shared table when a live parent
exists, a table of the entity's own otherwise. The `Named` construction
itself lives in the absent `properties/named.py` and is kept abstract. -/
inductive NamedSource where
  | own
  | fromParent
deriving DecidableEq, Repr

/-- `MSGFile.named` (`msg.py` lines 926-943): with a parent weak
reference whose target was collected, the lookup fails with
`ReferenceError`; a live parent supplies its table; the root builds its
own. -/
def MSGFile.named (m : MSGFile) : Except PyErr NamedSource :=
  match m.parentMsg with
  | .collected => .error (.referenceError ("Parent MSGFile instance has been garbage collected."))
  | .alive => .ok .fromParent
  | .root => .ok .own

/-- The state of a `Recipient` (`recipient.py` line 38-57) that the
verified operations read: the weak back-reference to the owning entity
(`none` once the target is collected) and the recipient's storage
directory. -/
structure Recipient where
  msgRef : Option MSGFile
  dirName : Path

/-- The shared error raised by every `Recipient` operation at the point
of use of a released back-reference. -/
def recipientGoneErr : PyErr :=
  .referenceError ("The msg file for this Recipient instance has been garbage collected.")

/-- `Recipient.getStream` (`recipient.py` lines 312-324). -/
def Recipient.getStream (r : Recipient) (filename : Path) : Except PyErr (Option Bytes) :=
  match r.msgRef with
  | none => .error recipientGoneErr
  | some m => .ok (m.getStream (r.dirName ++ '/' :: filename) true)

/-- `Recipient.getStringStream` (`recipient.py` lines 344-360). -/
def Recipient.getStringStream (r : Recipient) (filename : Path) :
    Except PyErr (Option (List Char)) :=
  match r.msgRef with
  | none => .error recipientGoneErr
  | some m => m.getStringStream (r.dirName ++ '/' :: filename) true

/-- `Recipient.exists` (`recipient.py` lines 184-193). -/
def Recipient.existsStream (r : Recipient) (filename : Path) : Except PyErr Bool :=
  match r.msgRef with
  | none => .error recipientGoneErr
  | some m => .ok (m.existsStream (r.dirName ++ '/' :: filename) true)

/-- `Recipient.getMultipleBinary` (`recipient.py` lines 219-232). -/
def Recipient.getMultipleBinary (r : Recipient) (filename : Path) :
    Except PyErr (Option (List (Option Bytes))) :=
  match r.msgRef with
  | none => .error recipientGoneErr
  | some m => m.getMultipleBinary (r.dirName ++ '/' :: filename) true

/-- `Recipient.getMultipleString` (`recipient.py` lines 234-247). -/
def Recipient.getMultipleString (r : Recipient) (filename : Path) :
    Except PyErr (List (List Char)) :=
  match r.msgRef with
  | none => .error recipientGoneErr
  | some m => m.getMultipleString (r.dirName ++ '/' :: filename) true

/-- `Recipient.getSingleOrMultipleString` (`recipient.py` lines 293-310). -/
def Recipient.getSingleOrMultipleString (r : Recipient) (filename : Path) :
    Except PyErr (Option (List Char ⊕ List (List Char))) :=
  match r.msgRef with
  | none => .error recipientGoneErr
  | some m => m.getSingleOrMultipleString (r.dirName ++ '/' :: filename) true

/-- `Recipient.getSingleOrMultipleBinary` (`recipient.py` lines 274-291). -/
def Recipient.getSingleOrMultipleBinary (r : Recipient) (filename : Path) :
    Except PyErr (Option (Bytes ⊕ List (Option Bytes))) :=
  match r.msgRef with
  | none => .error recipientGoneErr
  | some m => m.getSingleOrMultipleBinary (r.dirName ++ '/' :: filename) true

/-! Concrete containers used by the witness theorems. -/

/-- A container with no streams at all. -/
def oleEmpty : Ole := ⟨fun _ _ => [], fun _ => none⟩

/-- A root entity over the empty container under THROW. -/
def msgNoPropsThrow : MSGFile := ⟨oleEmpty, [], ⟨false⟩, none, .root⟩

/-- A root entity over the empty container under TOLERANT. -/
def msgNoPropsTol : MSGFile := ⟨oleEmpty, [], ⟨true⟩, none, .root⟩

/-- A multi-value binary set: a 16-byte container stream (two 8-byte
records) with both indexed siblings present, 5 and 3 bytes. -/
def oleMB : Ole :=
  ⟨fun _ _ => [], fun p =>
    if p = pstr ("__substg1.0_00011102") then some (List.replicate 16 0)
    else if p = pstr ("__substg1.0_00011102-00000000") then some [10, 20, 30, 40, 50]
    else if p = pstr ("__substg1.0_00011102-00000001") then some [60, 70, 80]
    else none⟩

/-- Root entity over `oleMB`, TOLERANT. -/
def msgMB : MSGFile := ⟨oleMB, [], ⟨true⟩, none, .root⟩

/-- The same multi-value binary set with the second indexed sibling
missing. -/
def oleC4 : Ole :=
  ⟨fun _ _ => [], fun p =>
    if p = pstr ("__substg1.0_00011102") then some (List.replicate 16 0)
    else if p = pstr ("__substg1.0_00011102-00000000") then some [10, 20, 30, 40, 50]
    else none⟩

/-- Root entity over `oleC4`, TOLERANT. -/
def msgC4 : MSGFile := ⟨oleC4, [], ⟨true⟩, none, .root⟩

/-- A container whose legacy multi-string container stream (the constant
name `101E`) and whose multi-binary container stream both have lengths
that violate the record widths (6 bytes). -/
def oleBadLen : Ole :=
  ⟨fun _ _ => [], fun p =>
    if p = pstr ("101E") then some [0, 1, 2, 3, 4, 5]
    else if p = pstr ("__substg1.0_00021102") then some [0, 1, 2, 3, 4, 5]
    else none⟩

/-- Root entity over `oleBadLen`, TOLERANT (so that the missing property
stream itself does not throw). -/
def msgBadLen : MSGFile := ⟨oleBadLen, [], ⟨true⟩, none, .root⟩

/-- Property-record stream bytes: one slot for tag `340D0003` holding the
inline value 0x40000 (the Unicode bit). -/
def propBytesU : Bytes :=
  [0x03, 0x00, 0x0D, 0x34, 0, 0, 0, 0, 0x00, 0x00, 0x04, 0x00, 0, 0, 0, 0]

/-- Property-record stream bytes: one slot for tag `3FFD0003` holding the
inline value 1252 (a codepage number), Unicode bit clear. -/
def propBytesCp : Bytes :=
  [0x03, 0x00, 0xFD, 0x3F, 0, 0, 0, 0, 0xE4, 0x04, 0x00, 0x00, 0, 0, 0, 0]

/-- A container holding only the Unicode-bit property stream. -/
def oleU : Ole :=
  ⟨fun _ _ => [], fun p =>
    if p = propsStreamName then some propBytesU else none⟩

/-- Root entity over `oleU`, THROW. -/
def msgU : MSGFile := ⟨oleU, [], ⟨false⟩, none, .root⟩

/-- A container holding only the codepage property stream. -/
def oleCp : Ole :=
  ⟨fun _ _ => [], fun p =>
    if p = propsStreamName then some propBytesCp else none⟩

/-- Root entity over `oleCp`, THROW. -/
def msgCp : MSGFile := ⟨oleCp, [], ⟨false⟩, none, .root⟩

/-- A container where id `0003` has both a single legacy string stream
and a multi-value string set, and id `0004` has both a single binary
stream and a multi-value binary set. -/
def oleSingleMulti : Ole :=
  ⟨fun _ _ => [], fun p =>
    if p = pstr ("__substg1.0_0003001E") then some [65]
    else if p = pstr ("101E") then some [0, 0, 0, 0]
    else if p = pstr ("101E-00000000") then some [66, 0]
    else if p = pstr ("__substg1.0_00040102") then some [1, 2]
    else if p = pstr ("__substg1.0_00041102") then some (List.replicate 8 0)
    else if p = pstr ("__substg1.0_00041102-00000000") then some [9]
    else none⟩

/-- Root entity over `oleSingleMulti`, TOLERANT. -/
def msgSingleMulti : MSGFile := ⟨oleSingleMulti, [], ⟨true⟩, none, .root⟩

/-- A recipient whose weak back-reference target has been collected. -/
def deadRecipient : Recipient := ⟨none, pstr ("__recip_version1.0_#00000000")⟩

/-- An embedded entity whose parent weak reference target has been
collected. -/
def msgParentGone : MSGFile := ⟨oleEmpty, [], ⟨true⟩, none, .collected⟩

/-- A container holding a legacy multi-value string set for id `1234`
but no stream literally named `101E`. -/
def oleC10 : Ole :=
  ⟨fun _ _ => [], fun p =>
    if p = pstr ("__substg1.0_1234101E") then some [1, 2, 3, 4]
    else if p = pstr ("__substg1.0_1234101E-00000000") then some [65, 0]
    else none⟩

/-- Root entity over `oleC10`, TOLERANT. -/
def msgC10 : MSGFile := ⟨oleC10, [], ⟨true⟩, none, .root⟩

/-- Property-record stream bytes with two slots: a variable-length record
for tag `0037001F` (declared length 4) and a fixed-length record for tag
`00260003` (inline value 2). -/
def propBytesC2 : Bytes :=
  [0x1F, 0x00, 0x37, 0x00, 0, 0, 0, 0, 4, 0, 0, 0, 0, 0, 0, 0] ++
  [0x03, 0x00, 0x26, 0x00, 0, 0, 0, 0, 2, 0, 0, 0, 0, 0, 0, 0]

/-- A container where id `0037` has both a stream and an inline
property-store record, and id `0026` has only an inline record. -/
def oleC2 : Ole :=
  ⟨fun s _ => if s then [[pstr ("__substg1.0_0037001F")], [propsStreamName]] else [],
   fun p =>
    if p = pstr ("__substg1.0_0037001F") then some [0x41, 0x00, 0x42, 0x00]
    else if p = propsStreamName then some propBytesC2
    else none⟩

/-- Root entity over `oleC2`, THROW. -/
def msgC2 : MSGFile := ⟨oleC2, [], ⟨false⟩, none, .root⟩

/-- The same entity state over a different container handle. -/
def withOle (m : MSGFile) (o : Ole) : MSGFile := { m with ole := o }

/-- Streams for the prefix-isolation example: a container holding an
embedded entity at prefix `__attach_1` together with a same-named stream
outside that prefix. -/
def oleC8 : Ole :=
  ⟨fun s _ => if s then
      [[pstr ("__substg1.0_0037001E")],
       [pstr ("__attach_1"), pstr ("__substg1.0_0037001E")],
       [pstr ("__attach_1"), pstr ("__properties_version1.0")]]
    else [],
   fun p =>
    if p = pstr ("__attach_1/__substg1.0_0037001E") then some [72, 73]
    else if p = pstr ("__attach_1/__properties_version1.0") then some propBytesC2
    else if p = pstr ("__substg1.0_0037001E") then some [88]
    else none⟩

/-- The same container with every stream outside the `__attach_1/` scope
replaced. -/
def oleC8b : Ole :=
  ⟨oleC8.listdirFn,
   fun p => if pstr ("__attach_1/") <+: p then oleC8.content p else some [99]⟩

/-- The embedded entity at prefix `__attach_1` over `oleC8`, THROW. -/
def msgC8 : MSGFile := ⟨oleC8, [pstr ("__attach_1")], ⟨false⟩, none, .alive⟩

end MsgSpec

namespace MsgSpec

/-! Helper lemmas. -/

theorem chunkExact_nil (w : Nat) : chunkExact w ([] : List α) = [] := by
  unfold chunkExact
  split <;> simp

theorem bindOk (a : α) (f : α → Except PyErr β) :
    (Except.ok a >>= f) = f a := rfl

theorem bindErr (e : PyErr) (f : α → Except PyErr β) :
    ((Except.error e : Except PyErr α) >>= f) = .error e := rfl

theorem parse_falsy (t : PropertiesType) (s : Option Bytes)
    (h : s = none ∨ s = some []) :
    PropertiesStore.parse t s = ⟨[]⟩ := by
  rcases h with h | h <;> subst h <;>
    simp [PropertiesStore.parse, chunkExact_nil]

theorem getValue_empty (key : Path) : PropertiesStore.getValue ⟨[]⟩ key = none := by
  simp [PropertiesStore.getValue, PropertiesStore.findRecord]

/-- Claim C1: for a container whose fixed property-record stream is
absent, under THROW both the property store and every `getPropertyVal`
fail with the standards-violation error; under TOLERANT the store
degrades to zero records and every `getPropertyVal` returns `none` (the
default). -/
theorem claim_C1 (m : MSGFile)
    (habs : m.getStream propsStreamName true = none) :
    (m.errorBehavior.svTolerant = false →
      m.props = .error (.standardViolation ("File does not contain a property stream.")) ∧
      ∀ name, m.getPropertyVal name =
        .error (.standardViolation ("File does not contain a property stream."))) ∧
    (m.errorBehavior.svTolerant = true →
      m.props = .ok ⟨[]⟩ ∧
      ∀ name, m.getPropertyVal name = .ok none) := by
  have hprops : m.props =
      (if m.errorBehavior.svTolerant then
        Except.ok (PropertiesStore.parse m.propertiesType none)
      else
        Except.error (.standardViolation ("File does not contain a property stream."))) := by
    simp [MSGFile.props, habs]
  constructor
  · intro h
    rw [h] at hprops
    simp only [Bool.false_eq_true, if_false] at hprops
    refine ⟨hprops, fun name => ?_⟩
    simp [MSGFile.getPropertyVal, hprops, Except.map]
  · intro h
    rw [h] at hprops
    simp only [if_true] at hprops
    rw [parse_falsy _ _ (Or.inl rfl)] at hprops
    refine ⟨hprops, fun name => ?_⟩
    simp [MSGFile.getPropertyVal, hprops, getValue_empty, Except.map]

/-- Witness for C1: over the empty container, THROW fails with the
standards violation and TOLERANT serves the `none` default. -/
theorem claim_C1_witness :
    msgNoPropsThrow.props =
      .error (.standardViolation ("File does not contain a property stream.")) ∧
    msgNoPropsTol.getPropertyVal (pstr ("3FFD0003")) = .ok none := by
  refine ⟨((claim_C1 msgNoPropsThrow rfl).1 rfl).1,
          (((claim_C1 msgNoPropsTol rfl).2 rfl).2) _⟩

end MsgSpec

namespace MsgSpec

/-- Claim C3: for a multi-value binary set whose container stream holds
`8 * N` bytes and whose N indexed siblings are all present,
`getMultipleBinary` returns exactly the N sibling byte strings in index
order; an empty container stream yields the empty list for every sibling
configuration (so no indexed sibling is consulted). -/
theorem claim_C3 (m : MSGFile) (f : Path) (usePfx : Bool) :
    (∀ (b : Bytes) (vals : List Bytes),
      m.getStream (m.fixPath f usePfx ++ pstr ("1102")) true = some b →
      b.length = 8 * vals.length →
      (∀ i (h : i < vals.length),
        m.getStream (m.fixPath f usePfx ++ pstr ("1102") ++ '-' :: toHex8 i) true =
          some (vals.get ⟨i, h⟩)) →
      m.getMultipleBinary f usePfx = .ok (some (vals.map some))) ∧
    (m.getStream (m.fixPath f usePfx ++ pstr ("1102")) true = some [] →
      m.getMultipleBinary f usePfx = .ok (some [])) := by
  constructor
  · intro b vals hb hlen hv
    simp only [MSGFile.getMultipleBinary, hb]
    rcases Nat.eq_zero_or_pos vals.length with h0 | hpos
    · have hb0 : b.length = 0 := by omega
      have hv0 : vals = [] := List.length_eq_zero.mp h0
      simp [hb0, hv0]
    · have hne : ¬ b.length = 0 := by omega
      have hmod : ¬ b.length % 8 ≠ 0 := by omega
      have hdiv : b.length / 8 = vals.length := by omega
      simp only [if_neg hne, if_neg hmod, hdiv]
      have hret : (List.range vals.length).map
          (fun x => m.getStream (m.fixPath f usePfx ++ pstr ("1102") ++ '-' :: toHex8 x) true) =
          vals.map some := by
        apply List.ext_getElem
        · simp
        · intro n h1 h2
          simp only [List.getElem_map, List.getElem_range]
          rw [hv n (by simpa using h1)]
          simp [List.get_eq_getElem]
      rw [hret]
      cases (vals.map some).find? (fun x => x.isNone) <;> rfl
  · intro hb
    simp [MSGFile.getMultipleBinary, hb]

/-- Witness for C3: the spec example, a 16-byte container stream with a
5-byte and a 3-byte sibling, yields exactly those two values. -/
theorem claim_C3_witness :
    msgMB.getMultipleBinary (pstr ("__substg1.0_0001")) true =
      .ok (some [some [10, 20, 30, 40, 50], some [60, 70, 80]]) := by
  have h := (claim_C3 msgMB (pstr ("__substg1.0_0001")) true).1
    (List.replicate 16 0) [[10, 20, 30, 40, 50], [60, 70, 80]]
    (by rfl) (by decide) (by decide)
  simpa using h

/-- Claim C4 (code bug evaluation): with the second of two declared
indexed siblings missing, the source intends to truncate to the longest
present prefix (`ret[:index]`, mirrored by the sibling `getMultipleString`
loop and by the logged message), but `index` is the value `None` itself,
so the untruncated list - missing entry included - is returned. -/
theorem claim_C4_eval :
    msgC4.getMultipleBinary (pstr ("__substg1.0_0001")) true =
      .ok (some [some [10, 20, 30, 40, 50], none]) := by rfl

/-- Claim C5: a multi-value string container stream of length not a
multiple of 4, and a non-empty multi-value binary container stream of
length not a multiple of 8, each raise `StandardViolationError`. -/
theorem claim_C5 (m : MSGFile) (f : Path) (usePfx : Bool) :
    (∀ (u : Bool) (b : Bytes),
      m.areStringsUnicode = .ok u →
      m.getStream (if u then m.fixPath f usePfx ++ pstr ("101F") else pstr ("101E")) true = some b →
      b.length % 4 ≠ 0 →
      m.getMultipleString f usePfx =
        .error (.standardViolation ("Length stream for multiple string was not a multiple of 4."))) ∧
    (∀ b : Bytes,
      m.getStream (m.fixPath f usePfx ++ pstr ("1102")) true = some b →
      b.length ≠ 0 → b.length % 8 ≠ 0 →
      m.getMultipleBinary f usePfx =
        .error (.standardViolation ("Length stream for multiple binary was not a multiple of 8."))) := by
  constructor
  · intro u b hu hb hmod
    have hne : ¬ b.length = 0 := by omega
    simp only [MSGFile.getMultipleString, hu, bindOk]
    simp only [hb, if_neg hne, if_pos hmod]
  · intro b hb hne hmod
    simp only [MSGFile.getMultipleBinary, hb, if_neg hne, if_pos hmod]

/-- Witness for C5: a 6-byte multi-string container stream and a 6-byte
multi-binary container stream both raise the standards violation. -/
theorem claim_C5_witness :
    msgBadLen.getMultipleString (pstr ("__substg1.0_0002")) true =
      .error (.standardViolation ("Length stream for multiple string was not a multiple of 4.")) ∧
    msgBadLen.getMultipleBinary (pstr ("__substg1.0_0002")) true =
      .error (.standardViolation ("Length stream for multiple binary was not a multiple of 8.")) :=
  ⟨(claim_C5 msgBadLen (pstr ("__substg1.0_0002")) true).1 false [0, 1, 2, 3, 4, 5]
      (by rfl) (by rfl) (by decide),
   (claim_C5 msgBadLen (pstr ("__substg1.0_0002")) true).2 [0, 1, 2, 3, 4, 5]
      (by rfl) (by decide) (by decide)⟩

/-- Claim C9: once the weak back-reference target is gone, every
`Recipient` operation that goes through it fails with the
reference-gone error at the point of use, and the embedded entity's
named-property lookup does the same; none of them returns a value. -/
theorem claim_C9 (r : Recipient) (m : MSGFile)
    (hr : r.msgRef = none) (hm : m.parentMsg = .collected) :
    (∀ f, r.getStream f = .error recipientGoneErr) ∧
    (∀ f, r.getStringStream f = .error recipientGoneErr) ∧
    (∀ f, r.existsStream f = .error recipientGoneErr) ∧
    (∀ f, r.getMultipleBinary f = .error recipientGoneErr) ∧
    (∀ f, r.getMultipleString f = .error recipientGoneErr) ∧
    (∀ f, r.getSingleOrMultipleString f = .error recipientGoneErr) ∧
    (∀ f, r.getSingleOrMultipleBinary f = .error recipientGoneErr) ∧
    m.named = .error (.referenceError ("Parent MSGFile instance has been garbage collected.")) := by
  refine ⟨fun f => ?_, fun f => ?_, fun f => ?_, fun f => ?_, fun f => ?_,
          fun f => ?_, fun f => ?_, ?_⟩
  · simp [Recipient.getStream, hr]
  · simp [Recipient.getStringStream, hr]
  · simp [Recipient.existsStream, hr]
  · simp [Recipient.getMultipleBinary, hr]
  · simp [Recipient.getMultipleString, hr]
  · simp [Recipient.getSingleOrMultipleString, hr]
  · simp [Recipient.getSingleOrMultipleBinary, hr]
  · simp [MSGFile.named, hm]

/-- Witness for C9: the dead recipient and the embedded entity with a
collected parent fail with the reference-gone errors. -/
theorem claim_C9_witness :
    deadRecipient.getStream (pstr ("__substg1.0_39FE")) = .error recipientGoneErr ∧
    msgParentGone.named =
      .error (.referenceError ("Parent MSGFile instance has been garbage collected.")) :=
  ⟨(claim_C9 deadRecipient msgParentGone rfl rfl).1 _,
   (claim_C9 deadRecipient msgParentGone rfl rfl).2.2.2.2.2.2.2⟩

/-- Claim C10: when the entity's strings are not Unicode, the conditional
in `getMultipleString` binds to the whole concatenation, so the consulted
container stream is literally named `101E` (prefixed); when that stream is
absent the result is the empty list for every requested id. Also the
absent-container contrast: `getMultipleString` yields `[]` while
`getMultipleBinary` yields `None`. -/
theorem claim_C10 (m : MSGFile)
    (hu : m.areStringsUnicode = .ok false)
    (habs : m.getStream (pstr ("101E")) true = none) :
    (∀ f usePfx, m.getMultipleString f usePfx = .ok []) ∧
    (∀ f usePfx, m.getStream (m.fixPath f usePfx ++ pstr ("1102")) true = none →
      m.getMultipleBinary f usePfx = .ok none) := by
  constructor
  · intro f usePfx
    simp only [MSGFile.getMultipleString, hu, bindOk]
    simp only [Bool.false_eq_true, if_false, habs]
  · intro f usePfx hb
    simp [MSGFile.getMultipleBinary, hb]

/-- Witness for C10: with a legacy multi-value string set present for id
`1234` but no literal `101E` stream, `getMultipleString` still returns the
empty list, and the absent binary container returns `None`. -/
theorem claim_C10_witness :
    msgC10.getMultipleString (pstr ("__substg1.0_1234")) true = .ok [] ∧
    msgC10.getMultipleBinary (pstr ("__substg1.0_1234")) true = .ok none :=
  ⟨(claim_C10 msgC10 (by rfl) (by rfl)).1 _ true,
   (claim_C10 msgC10 (by rfl) (by rfl)).2 _ true (by rfl)⟩

end MsgSpec

namespace MsgSpec

theorem containsKey_of_getValue (st : PropertiesStore) (key : Path) (v : Nat)
    (h : st.getValue key = some v) : st.containsKey key = true := by
  unfold PropertiesStore.getValue at h
  unfold PropertiesStore.containsKey
  cases hf : st.findRecord key with
  | none => rw [hf] at h; exact absurd h (by simp)
  | some r => simp [hf]

/-- Claim C6: the per-entity encoding is a deterministic function of the
property store (resolved once in the source, cached): Unicode bit 0x40000
of the store-support mask set means UTF-16LE; bit clear with the codepage
property present maps it through the fixed codepage table; bit clear with
the codepage property absent defaults to ISO-8859-15 without raising. -/
theorem claim_C6 (m : MSGFile) (st : PropertiesStore)
    (hov : m.overrideEncoding = none) (hst : m.props = .ok st) :
    (((st.getValue (pstr ("340D0003"))).getD 0) &&& 0x40000 ≠ 0 →
      m.stringEncoding = .ok ("utf-16-le")) ∧
    (((st.getValue (pstr ("340D0003"))).getD 0) &&& 0x40000 = 0 →
      (st.containsKey (pstr ("3FFD0003")) = false →
        m.stringEncoding = .ok ("iso-8859-15")) ∧
      (∀ cp, st.getValue (pstr ("3FFD0003")) = some cp →
        m.stringEncoding = lookupCodePage cp)) := by
  have hau : m.areStringsUnicode =
      .ok (decide (((st.getValue (pstr ("340D0003"))).getD 0) &&& 0x40000 ≠ 0)) := by
    simp [MSGFile.areStringsUnicode, hst, Except.map]
  constructor
  · intro h
    simp only [MSGFile.stringEncoding, hov, hau, bindOk, decide_eq_true h, if_true]
  · intro h
    have hdec : decide (((st.getValue (pstr ("340D0003"))).getD 0) &&& 0x40000 ≠ 0) = false := by
      simp [h]
    rw [hdec] at hau
    constructor
    · intro hck
      simp only [MSGFile.stringEncoding, hov, hau, bindOk, Bool.false_eq_true, if_false,
        hst, hck, if_true]
    · intro cp hcp
      have hck : st.containsKey (pstr ("3FFD0003")) = true :=
        containsKey_of_getValue _ _ _ hcp
      simp only [MSGFile.stringEncoding, hov, hau, bindOk, Bool.false_eq_true, if_false,
        hst, hck, hcp]
      simp

/-- Witness for C6: Unicode bit set resolves UTF-16LE; codepage 1252
resolves through the table; no codepage resolves the ISO-8859-15 default. -/
theorem claim_C6_witness :
    msgU.stringEncoding = .ok ("utf-16-le") ∧
    msgCp.stringEncoding = .ok ("windows-1252") ∧
    msgNoPropsTol.stringEncoding = .ok ("iso-8859-15") :=
  ⟨(claim_C6 msgU (PropertiesStore.parse .message (some propBytesU)) rfl rfl).1 (by decide),
   ((claim_C6 msgCp (PropertiesStore.parse .message (some propBytesCp)) rfl rfl).2
      (by decide)).2 1252 (by decide),
   ((claim_C6 msgNoPropsTol ⟨[]⟩ rfl (by rfl)).2 (by decide)).1 (by decide)⟩

/-- Claim C7: the single-or-multiple operations return the single-valued
result whenever the single-valued stream resolves, and consult the
multi-valued set of the same id only when it is absent. -/
theorem claim_C7 (m : MSGFile) (f : Path) (usePfx : Bool) :
    (∀ s, m.getStringStream (m.fixPath f usePfx) false = .ok (some s) →
      m.getSingleOrMultipleString f usePfx = .ok (some (.inl s))) ∧
    (m.getStringStream (m.fixPath f usePfx) false = .ok none →
      m.getSingleOrMultipleString f usePfx =
        (m.getMultipleString (m.fixPath f usePfx) false).map (fun l => some (.inr l))) ∧
    (∀ b, m.getStream (m.fixPath f usePfx ++ pstr ("0102")) false = some b →
      m.getSingleOrMultipleBinary f usePfx = .ok (some (.inl b))) ∧
    (m.getStream (m.fixPath f usePfx ++ pstr ("0102")) false = none →
      m.getSingleOrMultipleBinary f usePfx =
        (m.getMultipleBinary (m.fixPath f usePfx) false).map (fun r => r.map Sum.inr)) := by
  refine ⟨fun s h => ?_, fun h => ?_, fun b h => ?_, fun h => ?_⟩
  · simp only [MSGFile.getSingleOrMultipleString, h, bindOk]
  · simp only [MSGFile.getSingleOrMultipleString, h, bindOk]
    cases hml : m.getMultipleString (m.fixPath f usePfx) false <;>
      simp [hml, bindOk, bindErr, Except.map]
  · simp only [MSGFile.getSingleOrMultipleBinary, h]
  · simp only [MSGFile.getSingleOrMultipleBinary, h]
    cases hml : m.getMultipleBinary (m.fixPath f usePfx) false <;>
      simp [hml, bindOk, bindErr, Except.map]

/-- Witness for C7: with both a single legacy string stream and a
multi-value string set for id `0003`, and both a single binary stream
and a multi-value binary set for id `0004`, the single-valued results
win. -/
theorem claim_C7_witness :
    msgSingleMulti.getSingleOrMultipleString (pstr ("__substg1.0_0003")) true =
      .ok (some (.inl [ 'A' ])) ∧
    msgSingleMulti.getSingleOrMultipleBinary (pstr ("__substg1.0_0004")) true =
      .ok (some (.inl [1, 2])) :=
  ⟨(claim_C7 msgSingleMulti (pstr ("__substg1.0_0003")) true).1 [ 'A' ] (by rfl),
   (claim_C7 msgSingleMulti (pstr ("__substg1.0_0004")) true).2.2.1 [1, 2] (by rfl)⟩

end MsgSpec

namespace MsgSpec

theorem typedScan_nil (m : MSGFile) (fn : Path) :
    m.typedScan fn [] = .ok (false, none) := rfl

theorem typedScan_cons_skip (m : MSGFile) (fn x : Path) (rest : List Path)
    (hx : ¬ (fn <+: x ∧ '-' ∉ x)) :
    m.typedScan fn (x :: rest) = m.typedScan fn rest := by
  simp only [MSGFile.typedScan, if_neg hx]

theorem typedScan_cons_absent (m : MSGFile) (fn x : Path) (rest : List Path)
    (hx : fn <+: x ∧ '-' ∉ x) (hs : m.getStream x false = none) :
    m.typedScan fn (x :: rest) = m.typedScan fn rest := by
  simp only [MSGFile.typedScan, if_pos hx, hs]

theorem typedScan_cons_present (m : MSGFile) (fn x : Path) (rest : List Path)
    (v : Bytes) (hx : fn <+: x ∧ '-' ∉ x) (hs : m.getStream x false = some v) :
    m.typedScan fn (x :: rest) = m.typedScan fn [x] := by
  cases v <;> simp only [MSGFile.typedScan, if_pos hx, hs]


/-- A candidate that is skipped or absent contributes nothing to the scan. -/
theorem typedScan_ineligible (m : MSGFile) (fn x : Path) (rest : List Path)
    (hx : ¬ (fn <+: x ∧ '-' ∉ x ∧ (m.getStream x false).isSome = true)) :
    m.typedScan fn (x :: rest) = m.typedScan fn rest := by
  by_cases hc : fn <+: x ∧ '-' ∉ x
  · have hnone : m.getStream x false = none := by
      cases hg : m.getStream x false with
      | none => rfl
      | some v => exact absurd ⟨hc.1, hc.2, by simp [hg]⟩ hx
    exact typedScan_cons_absent m fn x rest hc hnone
  · exact typedScan_cons_skip m fn x rest hc
theorem typedScan_append_skip (m : MSGFile) (fn : Path) (l1 rest : List Path)
    (h : ∀ y ∈ l1, ¬ (fn <+: y ∧ '-' ∉ y ∧ (m.getStream y false).isSome = true)) :
    m.typedScan fn (l1 ++ rest) = m.typedScan fn rest := by
  induction l1 with
  | nil => rfl
  | cons y ys ih =>
    rw [List.cons_append, typedScan_ineligible m fn y _ (h y (by simp))]
    exact ih (fun z hz => h z (by simp [hz]))

theorem typedScan_all_ineligible (m : MSGFile) (fn : Path) (l : List Path)
    (h : ∀ x ∈ l, ¬ (fn <+: x ∧ '-' ∉ x ∧ (m.getStream x false).isSome = true)) :
    m.typedScan fn l = .ok (false, none) := by
  induction l with
  | nil => rfl
  | cons x rest ih =>
    rw [typedScan_ineligible m fn x rest (h x (by simp))]
    exact ih (fun y hy => h y (by simp [hy]))

/-- Claim C2: typed resolution first looks for a stream - the exact
id+type stream when the type is given, else the first listed stream whose
name starts with the fixed id stem and carries no indexed-element dash -
and only when no such stream yields does it fall back to the inline
Property Store record, returning none when neither exists; a stream that
is found always pre-empts the inline record. Stated for uppercase 4-hex
ids (the source uppercases the id before resolving). -/
theorem claim_C2 (m : MSGFile) (id : Path)
    (hid : validPropId id = true) (hupper : pyUpper id = id) :
    (∀ (t? : Option Path) (r : Option Value),
      m._getTypedStream (substgName id) true t? = .ok (true, r) →
      m._getTypedData id t? = .ok r) ∧
    (∀ (t? : Option Path) (st : PropertiesStore),
      (match t? with | some ty => validType4 ty = true | none => True) →
      m._getTypedStream (substgName id) true t? = .ok (false, none) →
      m.props = .ok st →
      m._getTypedData id t? = .ok ((st.getValue (id ++ t?.getD [])).map Value.int)) ∧
    (∀ ty, validType4 ty = true →
      m.getStream (m.prefixStr ++ substgName id ++ ty) false = none →
      m._getTypedStream (substgName id) true (some ty) = .ok (false, none)) ∧
    (∀ ty, validType4 ty = true →
      m._getTypedStream (substgName id) true (some ty) =
        m.typedScan (m.prefixStr ++ substgName id) [m.prefixStr ++ substgName id ++ ty]) ∧
    ((∀ x ∈ m.slistDir true false true,
        ¬ ((m.prefixStr ++ substgName id) <+: x ∧ '-' ∉ x ∧
           (m.getStream x false).isSome = true)) →
      m._getTypedStream (substgName id) true none = .ok (false, none)) ∧
    (∀ (l1 : List Path) (x : Path) (l2 : List Path) (v : Bytes),
      m.slistDir true false true = l1 ++ x :: l2 →
      (∀ y ∈ l1, ¬ ((m.prefixStr ++ substgName id) <+: y ∧ '-' ∉ y ∧
          (m.getStream y false).isSome = true)) →
      (m.prefixStr ++ substgName id) <+: x → '-' ∉ x →
      m.getStream x false = some v →
      m._getTypedStream (substgName id) true none =
        m.typedScan (m.prefixStr ++ substgName id) [x]) := by
  have hfix : m.fixPath (substgName id) true = m.prefixStr ++ substgName id := by
    simp [MSGFile.fixPath]
  refine ⟨?_, ?_, ?_, ?_, ?_, ?_⟩
  · intro t? r h
    simp [MSGFile._getTypedData, hid, hupper, h, bindOk]
  · intro t? st hty hscan hst
    simp only [MSGFile._getTypedData, hid, Bool.true_eq_false, if_false, hupper, hscan, bindOk]
    cases t? with
    | none =>
      simp only [MSGFile._getTypedProperty, hid, Bool.true_eq_false, if_false, hst, bindOk]
      cases hv : st.getValue id <;>
        simp [hv, bindOk]
    | some ty =>
      have hty2 : validType4 ty = true := hty
      simp only [MSGFile._getTypedProperty, hid, Bool.true_eq_false, if_false,
        hty2, if_true, hst, bindOk]
      cases hv : st.getValue (id ++ ty) <;>
        simp [hv, bindOk]
  · intro ty hty habs
    simp only [MSGFile._getTypedStream, hty, if_true, hfix]
    by_cases hc : (m.prefixStr ++ substgName id) <+: (m.prefixStr ++ substgName id ++ ty) ∧
        '-' ∉ (m.prefixStr ++ substgName id ++ ty)
    · rw [typedScan_cons_absent m _ _ _ hc habs, typedScan_nil]
    · rw [typedScan_cons_skip m _ _ _ hc, typedScan_nil]
  · intro ty hty
    simp only [MSGFile._getTypedStream, hty, if_true, hfix]
  · intro h
    simp only [MSGFile._getTypedStream, hfix]
    exact typedScan_all_ineligible m _ _ h
  · intro l1 x l2 v hlist hskip hpre hdash hv
    simp only [MSGFile._getTypedStream, hfix, hlist]
    rw [typedScan_append_skip m _ l1 _ hskip,
      typedScan_cons_present m _ x l2 v ⟨hpre, hdash⟩ hv]

end MsgSpec

namespace MsgSpec

/-- Witness for C2: id `0037` is resolved from its stream (whose decoded
value pre-empts the inline variable-length record of the same id), and id
`0026`, having no stream, falls back to its inline fixed-length record. -/
theorem claim_C2_witness :
    msgC2._getTypedData (pstr ("0037")) none = .ok (some (.str [ 'A', 'B' ])) ∧
    msgC2._getTypedData (pstr ("0026")) (some (pstr ("0003"))) = .ok (some (.int 2)) :=
  ⟨(claim_C2 msgC2 (pstr ("0037")) (by decide) (by decide)).1 none
      (some (.str [ 'A', 'B' ])) (by rfl),
   (((claim_C2 msgC2 (pstr ("0026")) (by decide) (by decide)).2.1 (some (pstr ("0003")))
      (PropertiesStore.parse .message (some propBytesC2)) (by decide) (by rfl)
      (by rfl)).trans (by rfl))⟩

end MsgSpec

namespace MsgSpec

theorem joinSlash_append (a b : List Path) (ha : a ≠ []) (hb : b ≠ []) :
    joinSlash (a ++ b) = joinSlash a ++ '/' :: joinSlash b := by
  induction a with
  | nil => exact absurd rfl ha
  | cons x xs ih =>
    cases xs with
    | nil =>
      cases b with
      | nil => exact absurd rfl hb
      | cons y ys => rfl
    | cons z zs =>
      have hstep := ih (by simp)
      simp only [List.cons_append] at hstep ⊢
      calc joinSlash (x :: z :: (zs ++ b))
          = x ++ '/' :: joinSlash (z :: (zs ++ b)) := rfl
        _ = x ++ '/' :: (joinSlash (z :: zs) ++ '/' :: joinSlash b) := by
              rw [← hstep]
        _ = (x ++ '/' :: joinSlash (z :: zs)) ++ '/' :: joinSlash b := by
              simp [List.append_assoc]
        _ = joinSlash (x :: z :: zs) ++ '/' :: joinSlash b := rfl

theorem listDir_below (m : MSGFile) (hpre : m.prefixList ≠ [])
    (s st : Bool) (e : List Path) (he : e ∈ m.listDir s st true) :
    e.take m.prefixList.length = m.prefixList ∧ m.prefixList.length < e.length := by
  simp only [MSGFile.listDir, if_neg hpre, if_true] at he
  rw [List.mem_filter] at he
  have hp := of_decide_eq_true he.2
  exact ⟨hp.2, hp.1⟩

theorem slistDir_prefixed (m : MSGFile) (hpre : m.prefixList ≠ [])
    (x : Path) (hx : x ∈ m.slistDir true false true) : m.prefixStr <+: x := by
  simp only [MSGFile.slistDir, List.mem_map] at hx
  obtain ⟨e, he, rfl⟩ := hx
  obtain ⟨htake, hlen⟩ := listDir_below m hpre true false e he
  have hdropne : e.drop m.prefixList.length ≠ [] := by
    intro h
    have := List.drop_eq_nil_iff.mp h
    omega
  have hsplit : e = m.prefixList ++ e.drop m.prefixList.length := by
    conv_lhs => rw [← List.take_append_drop m.prefixList.length e]
    rw [htake]
  rw [hsplit, joinSlash_append _ _ hpre hdropne]
  simp only [MSGFile.prefixStr, if_neg hpre]
  exact ⟨joinSlash (e.drop m.prefixList.length), by simp⟩

theorem getStreamT_congr (m : MSGFile) (o2 : Ole)
    (hc : ∀ p, m.prefixStr <+: p → m.ole.content p = o2.content p) (p : Path) :
    m.getStream p true = (withOle m o2).getStream p true :=
  hc _ (List.prefix_append _ _)

theorem getStreamF_congr (m : MSGFile) (o2 : Ole)
    (hc : ∀ p, m.prefixStr <+: p → m.ole.content p = o2.content p)
    (p : Path) (hp : m.prefixStr <+: p) :
    m.getStream p false = (withOle m o2).getStream p false :=
  hc p hp

theorem props_congr (m : MSGFile) (o2 : Ole)
    (hc : ∀ p, m.prefixStr <+: p → m.ole.content p = o2.content p) :
    m.props = (withOle m o2).props := by
  unfold MSGFile.props
  rw [getStreamT_congr m o2 hc propsStreamName]
  rfl

theorem areStringsUnicode_congr (m : MSGFile) (o2 : Ole)
    (hc : ∀ p, m.prefixStr <+: p → m.ole.content p = o2.content p) :
    m.areStringsUnicode = (withOle m o2).areStringsUnicode := by
  unfold MSGFile.areStringsUnicode
  rw [props_congr m o2 hc]

theorem stringEncoding_congr (m : MSGFile) (o2 : Ole)
    (hc : ∀ p, m.prefixStr <+: p → m.ole.content p = o2.content p) :
    m.stringEncoding = (withOle m o2).stringEncoding := by
  unfold MSGFile.stringEncoding
  rw [areStringsUnicode_congr m o2 hc, props_congr m o2 hc]
  rfl

theorem propsRealLength_congr (m : MSGFile) (o2 : Ole)
    (hc : ∀ p, m.prefixStr <+: p → m.ole.content p = o2.content p) (k : Path) :
    m.propsRealLength k = (withOle m o2).propsRealLength k := by
  unfold MSGFile.propsRealLength
  rw [props_congr m o2 hc]

end MsgSpec

namespace MsgSpec

theorem typedScan_congr (m : MSGFile) (o2 : Ole)
    (hc : ∀ p, m.prefixStr <+: p → m.ole.content p = o2.content p)
    (fn : Path) (l : List Path) (hl : ∀ x ∈ l, m.prefixStr <+: x) :
    m.typedScan fn l = (withOle m o2).typedScan fn l := by
  induction l with
  | nil => rfl
  | cons x rest ih =>
    have hx : m.prefixStr <+: x := hl x (by simp)
    have hrest : ∀ y ∈ rest, m.prefixStr <+: y :=
      fun y hy => hl y (List.mem_cons_of_mem x hy)
    have hgs : ∀ s : Path,
        m.getStream (x ++ s) false = (withOle m o2).getStream (x ++ s) false :=
      fun s => getStreamF_congr m o2 hc (x ++ s) (hx.trans (List.prefix_append x s))
    have hgs0 : m.getStream x false = (withOle m o2).getStream x false := by
      have h := hgs []
      rwa [List.append_nil] at h
    have hex : ∀ s : Path,
        m.existsStream (x ++ s) false = (withOle m o2).existsStream (x ++ s) false := by
      intro s
      unfold MSGFile.existsStream
      rw [hgs s]
    simp only [MSGFile.typedScan]
    by_cases hcnd : fn <+: x ∧ '-' ∉ x
    · rw [if_pos hcnd, if_pos hcnd, ← hgs0]
      cases hg : m.getStream x false with
      | none => exact ih hrest
      | some v =>
        cases v with
        | nil => rfl
        | cons c cs =>
          simp only [stringEncoding_congr m o2 hc, propsRealLength_congr m o2 hc, hex, hgs]
    · rw [if_neg hcnd, if_neg hcnd]
      exact ih hrest

theorem slistDir_congr (m : MSGFile) (o2 : Ole) (hpre : m.prefixList ≠ [])
    (hl : (m.ole.listdirFn true false).filter
            (fun x => m.prefixList.length < x.length ∧ x.take m.prefixList.length = m.prefixList) =
          (o2.listdirFn true false).filter
            (fun x => m.prefixList.length < x.length ∧ x.take m.prefixList.length = m.prefixList)) :
    m.slistDir true false true = (withOle m o2).slistDir true false true := by
  simp only [MSGFile.slistDir, MSGFile.listDir, withOle]
  rw [if_neg hpre, if_neg hpre, hl]

theorem getTypedStream_congr (m : MSGFile) (o2 : Ole) (hpre : m.prefixList ≠ [])
    (hc : ∀ p, m.prefixStr <+: p → m.ole.content p = o2.content p)
    (hl : (m.ole.listdirFn true false).filter
            (fun x => m.prefixList.length < x.length ∧ x.take m.prefixList.length = m.prefixList) =
          (o2.listdirFn true false).filter
            (fun x => m.prefixList.length < x.length ∧ x.take m.prefixList.length = m.prefixList))
    (filename : Path) (t? : Option Path) :
    m._getTypedStream filename true t? = (withOle m o2)._getTypedStream filename true t? := by
  unfold MSGFile._getTypedStream
  cases t? with
  | some ty =>
    by_cases hty : validType4 ty = true
    · simp only [hty, if_true]
      have hfix1 : m.fixPath filename true = m.prefixStr ++ filename := rfl
      have hfix2 : (withOle m o2).fixPath filename true = m.prefixStr ++ filename := rfl
      rw [hfix1, hfix2]
      refine typedScan_congr m o2 hc _ _ ?_
      intro y hy
      simp only [List.mem_singleton] at hy
      subst hy
      rw [List.append_assoc]
      exact List.prefix_append _ _
    · simp [hty]
  | none =>
    have hfix1 : m.fixPath filename true = m.prefixStr ++ filename := rfl
    have hfix2 : (withOle m o2).fixPath filename true = m.prefixStr ++ filename := rfl
    rw [hfix1, hfix2, ← slistDir_congr m o2 hpre hl]
    exact typedScan_congr m o2 hc _ _ (slistDir_prefixed m hpre)

theorem getTypedProperty_congr (m : MSGFile) (o2 : Ole)
    (hc : ∀ p, m.prefixStr <+: p → m.ole.content p = o2.content p)
    (id : Path) (t? : Option Path) :
    m._getTypedProperty id t? = (withOle m o2)._getTypedProperty id t? := by
  unfold MSGFile._getTypedProperty
  simp only [props_congr m o2 hc]

/-- Claim C8 (prefix isolation): every prefixed read of path X resolves
to container path `prefix + X`; `listDir` returns only entries strictly
below the prefix; and for two containers that agree on every stream path
below the prefix and on the directory entries below the prefix, the
embedded entity's typed resolution of every property is identical, no
matter how same-named streams outside the prefix differ. -/
theorem claim_C8 (m : MSGFile) (o2 : Ole) (hpre : m.prefixList ≠ [])
    (hc : ∀ p, m.prefixStr <+: p → m.ole.content p = o2.content p)
    (hl : (m.ole.listdirFn true false).filter
            (fun x => m.prefixList.length < x.length ∧ x.take m.prefixList.length = m.prefixList) =
          (o2.listdirFn true false).filter
            (fun x => m.prefixList.length < x.length ∧ x.take m.prefixList.length = m.prefixList)) :
    (∀ X, m.getStream X true = m.ole.content (m.prefixStr ++ X)) ∧
    (∀ s st e, e ∈ m.listDir s st true →
        m.prefixList <+: e ∧ m.prefixList.length < e.length) ∧
    (∀ id t?, m._getTypedData id t? = (withOle m o2)._getTypedData id t?) := by
  refine ⟨fun X => rfl, fun s st e he => ?_, fun id t? => ?_⟩
  · obtain ⟨htake, hlen⟩ := listDir_below m hpre s st e he
    refine ⟨?_, hlen⟩
    rw [← htake]
    exact List.take_prefix _ _
  · unfold MSGFile._getTypedData
    by_cases hvid : validPropId id = false
    · simp [hvid]
    · rw [if_neg hvid, if_neg hvid]
      simp only [getTypedStream_congr m o2 hpre hc hl, getTypedProperty_congr m o2 hc]

end MsgSpec

namespace MsgSpec

/-- Witness for C8: the embedded entity at prefix `__attach_1` reads
`prefix + X`, and replacing every stream outside `__attach_1/` leaves its
typed resolution of id `0037` unchanged. -/
theorem claim_C8_witness :
    msgC8.getStream (pstr ("__substg1.0_0037001E")) true =
      msgC8.ole.content (msgC8.prefixStr ++ pstr ("__substg1.0_0037001E")) ∧
    msgC8._getTypedData (pstr ("0037")) none =
      (withOle msgC8 oleC8b)._getTypedData (pstr ("0037")) none := by
  have hpre : msgC8.prefixList ≠ [] := by decide
  have hps : msgC8.prefixStr = pstr ("__attach_1/") := by decide
  have hc : ∀ p, msgC8.prefixStr <+: p → msgC8.ole.content p = oleC8b.content p := by
    intro p hp
    rw [hps] at hp
    change oleC8.content p =
      if pstr ("__attach_1/") <+: p then oleC8.content p else some [99]
    rw [if_pos hp]
  exact ⟨(claim_C8 msgC8 oleC8b hpre hc rfl).1 _,
         (claim_C8 msgC8 oleC8b hpre hc rfl).2.2 _ _⟩

end MsgSpec
